import Mathlib

/-!
Shallow embedding of `buildscripts/resmokelib/testing/hooks/initialsync.py`.

The file defines two resmoke hooks:

* `BackgroundInitialSync` / `BackgroundInitialSyncTestCase` — after every test,
  increments `tests_run`; its dynamic test case's `run_test` waits (bounded by
  20 minutes) for the initial sync node to reach SECONDARY once `tests_run >= n`
  (resetting the counter first), then queries `replSetGetStatus`, and depending
  on the observed state validates and restarts initial sync, skips, randomly
  injects a restart fault, or raises `errors.TestFailure`.
* `IntermediateInitialSync` / `IntermediateInitialSyncTestCase` — a no-op until
  `tests_run >= n`; then resets the counter and unconditionally runs a restart
  cycle, a bounded wait for SECONDARY, and the validator.

External calls (admin commands, node lifecycle, the JS validator, the random
draw) are modelled by an environment record that fixes, for one invocation, the
result each call would produce if issued.  Each invocation returns the new hook
state, the list of external actions actually performed (in order), and an
outcome describing normal return or the exception that escaped.
-/

namespace InitialSync

/-- Result of one external call that returns no data: it either returns
normally, raises `pymongo.errors.OperationFailure`, or raises some other
exception (`errors.TestFailure`, a network error, ...).  The distinction
matters because `run_test`'s `try` block catches exactly
`pymongo.errors.OperationFailure`. -/
inductive CallRes
  | success
  | errOp
  | errOther
deriving DecidableEq, Repr

/-- Result of the `replSetGetStatus` admin command: either the reported
`myState` integer, or a raised exception.  An `OperationFailure` carries
whether it was caused by the node still being in STARTUP (the case the
source's comment describes); the Python code cannot observe this flag — it
catches the whole `OperationFailure` class — but the spec distinguishes the
two, so the embedding records it. -/
inductive QueryRes
  | ok (state : Int)
  | errOp (fromStartup : Bool)
  | errOther
deriving DecidableEq, Repr

/-- One observable external action performed by a hook invocation, in program
order.  `faultInject` marks the taken fault-injection branch (the source's
"randomly restarting ..." log line just before `__restart_init_sync`), and
`cycleStart` marks entry into a sync-restart cycle. -/
inductive Event
  | waitCmd (timeoutMillis : Nat)
  | statusQuery (res : QueryRes)
  | faultInject
  | cycleStart
  | resyncCmd (waitZero : Bool)
  | teardown
  | setupNode
  | awaitReady
  | validate
deriving DecidableEq, Repr

/-- How an invocation of the hook terminates: normal return, a raised
`errors.TestFailure msg`, a propagated `pymongo.errors.OperationFailure`, or a
propagated exception of any other class. -/
inductive Outcome
  | normal
  | testFailure (msg : String)
  | raisedOp
  | raisedOther
deriving DecidableEq, Repr

/-- Results the environment assigns to the calls a sync-restart cycle can
issue (`resync` admin command, or `teardown`/`setup`/`await_ready`). -/
structure CycleEnv where
  resyncRes : CallRes
  teardownRes : CallRes
  setupRes : CallRes
  awaitRes : CallRes
deriving DecidableEq, Repr

/-- The sync-restart-cycle primitive: `BackgroundInitialSyncTestCase.__restart_init_sync`
(called with `resyncWaitZero = true`: its resync command is
`SON([("resync", 1), ("wait", 0)])`) and the inline restart block at the top of
`IntermediateInitialSyncTestCase.run_test` (called with
`resyncWaitZero = false`: its resync command is `SON([("resync", 1)])`).
If `use_resync` it issues only the resync admin command; otherwise it tears the
node down, sets it up again and awaits readiness, stopping at the first call
that raises.  Returns the actions performed and the overall call result. -/
def syncRestartCycle (resyncWaitZero : Bool) (use_resync : Bool) (env : CycleEnv) :
    List Event × CallRes :=
  if use_resync then
    ([Event.cycleStart, Event.resyncCmd resyncWaitZero], env.resyncRes)
  else
    match env.teardownRes with
    | CallRes.success =>
      match env.setupRes with
      | CallRes.success =>
        ([Event.cycleStart, Event.teardown, Event.setupNode, Event.awaitReady], env.awaitRes)
      | r => ([Event.cycleStart, Event.teardown, Event.setupNode], r)
    | r => ([Event.cycleStart, Event.teardown], r)

/-- The mutable state of a `BackgroundInitialSync` hook instance:
`use_resync` and `n` are set at construction, `tests_run` and
`random_restarts` both start at 0. -/
structure BackgroundInitialSync where
  use_resync : Bool
  n : Nat
  tests_run : Nat
  random_restarts : Nat
deriving DecidableEq, Repr

/-- `BackgroundInitialSync.__init__`: counters start at 0. -/
def BackgroundInitialSync.init (use_resync : Bool) (n : Nat) : BackgroundInitialSync :=
  ⟨use_resync, n, 0, 0⟩

/-- Environment for one `BackgroundInitialSyncTestCase.run_test` invocation:
the result of the `replSetTest waitForMemberState` command (if issued), the
result of `replSetGetStatus`, whether `random.random() < 0.2`, and the results
of the calls of the fault-injection restart cycle, the JS validator, and the
final restart cycle (each used only if reached). -/
structure BEnv where
  waitRes : CallRes
  queryRes : QueryRes
  randHit : Bool
  faultCycle : CycleEnv
  validatorRes : CallRes
  finalCycle : CycleEnv
deriving DecidableEq, Repr

/-- Result of one hook invocation on the Background hook. -/
structure BResult where
  state : BackgroundInitialSync
  trace : List Event
  outcome : Outcome
deriving DecidableEq, Repr

/-- `timeoutMillis` of the bounded wait: `20 * 60 * 1000`. -/
def waitForSecondaryTimeout : Nat := 20 * 60 * 1000

/-- The message of the `errors.TestFailure` raised when the bounded wait was
supposed to guarantee SECONDARY but the state query disagrees. -/
def notCaughtUpMsg : String := "Initial sync node did not catch up after waiting 20 minutes"

/-- The `try` block of `BackgroundInitialSyncTestCase.run_test` and what
follows it, given the state after the threshold step and the actions already
performed.  `except pymongo.errors.OperationFailure` turns an `errOp` raised
by `replSetGetStatus` — or by `__restart_init_sync` inside the fault-injection
branch — into a normal return; every other exception propagates.  The
`raise errors.TestFailure` is not an `OperationFailure`, so it escapes. -/
def runTestFrom (hook : BackgroundInitialSync) (env : BEnv) (tr : List Event) : BResult :=
  let tr := tr ++ [Event.statusQuery env.queryRes]
  match env.queryRes with
  | QueryRes.errOp _ => ⟨hook, tr, Outcome.normal⟩
  | QueryRes.errOther => ⟨hook, tr, Outcome.raisedOther⟩
  | QueryRes.ok state =>
    if state ≠ 2 then
      if hook.tests_run = 0 then
        ⟨hook, tr, Outcome.testFailure notCaughtUpMsg⟩
      else if hook.random_restarts < 1 ∧ env.randHit then
        let c := syncRestartCycle true hook.use_resync env.faultCycle
        let tr := tr ++ Event.faultInject :: c.1
        match c.2 with
        | CallRes.success =>
          ⟨{ hook with random_restarts := hook.random_restarts + 1 }, tr, Outcome.normal⟩
        | CallRes.errOp => ⟨hook, tr, Outcome.normal⟩
        | CallRes.errOther => ⟨hook, tr, Outcome.raisedOther⟩
      else
        ⟨hook, tr, Outcome.normal⟩
    else
      let hook := { hook with random_restarts := 0 }
      let tr := tr ++ [Event.validate]
      match env.validatorRes with
      | CallRes.errOp => ⟨hook, tr, Outcome.raisedOp⟩
      | CallRes.errOther => ⟨hook, tr, Outcome.raisedOther⟩
      | CallRes.success =>
        let c := syncRestartCycle true hook.use_resync env.finalCycle
        let tr := tr ++ c.1
        match c.2 with
        | CallRes.success => ⟨hook, tr, Outcome.normal⟩
        | CallRes.errOp => ⟨hook, tr, Outcome.raisedOp⟩
        | CallRes.errOther => ⟨hook, tr, Outcome.raisedOther⟩

/-- `BackgroundInitialSyncTestCase.run_test`: if `tests_run >= n`, reset
`tests_run` to 0 and issue the bounded `waitForMemberState 2` command (whose
failure propagates — it is outside the `try`); then run the `try` block. -/
def BackgroundInitialSyncTestCase.run_test (hook : BackgroundInitialSync) (env : BEnv) :
    BResult :=
  if hook.n ≤ hook.tests_run then
    let hook := { hook with tests_run := 0 }
    let tr := [Event.waitCmd waitForSecondaryTimeout]
    match env.waitRes with
    | CallRes.success => runTestFrom hook env tr
    | CallRes.errOp => ⟨hook, tr, Outcome.raisedOp⟩
    | CallRes.errOther => ⟨hook, tr, Outcome.raisedOther⟩
  else
    runTestFrom hook env []

/-- `BackgroundInitialSync.after_test`: increment `tests_run`, then run the
dynamic test case's `run_test`. -/
def BackgroundInitialSync.after_test (hook : BackgroundInitialSync) (env : BEnv) : BResult :=
  BackgroundInitialSyncTestCase.run_test { hook with tests_run := hook.tests_run + 1 } env

/-- Iterate `after_test` over a sequence of per-invocation environments,
keeping only the hook state. -/
def BackgroundInitialSync.runList (hook : BackgroundInitialSync) : List BEnv → BackgroundInitialSync
  | [] => hook
  | e :: es => BackgroundInitialSync.runList (BackgroundInitialSync.after_test hook e).state es

/-- The mutable state of an `IntermediateInitialSync` hook instance:
`use_resync` and `n` set at construction, `tests_run` starting at 0.  This
variant has no `random_restarts` field. -/
structure IntermediateInitialSync where
  use_resync : Bool
  n : Nat
  tests_run : Nat
deriving DecidableEq, Repr

/-- `IntermediateInitialSync.__init__`: the counter starts at 0. -/
def IntermediateInitialSync.init (use_resync : Bool) (n : Nat) : IntermediateInitialSync :=
  ⟨use_resync, n, 0⟩

/-- Environment for one `IntermediateInitialSyncTestCase.run_test` invocation:
results of the restart-cycle calls, of the bounded wait command, and of the
JS validator (each used only if reached). -/
structure IEnv where
  cycle : CycleEnv
  waitRes : CallRes
  validatorRes : CallRes
deriving DecidableEq, Repr

/-- Result of one hook invocation on the Intermediate hook. -/
structure IResult where
  state : IntermediateInitialSync
  trace : List Event
  outcome : Outcome
deriving DecidableEq, Repr

/-- `IntermediateInitialSync._should_run_after_test`: increment `tests_run`;
if it is still below `n`, keep it and report `false`; otherwise reset it to 0
and report `true`. -/
def IntermediateInitialSync.should_run_after_test (hook : IntermediateInitialSync) :
    IntermediateInitialSync × Bool :=
  let hook := { hook with tests_run := hook.tests_run + 1 }
  if hook.tests_run < hook.n then (hook, false)
  else ({ hook with tests_run := 0 }, true)

/-- `IntermediateInitialSyncTestCase.run_test`: run the restart block
(resync without a `wait` field, or teardown/setup/await_ready), then the
bounded `waitForMemberState 2` command, then the validator.  Any raised
exception propagates — there is no `try` in this variant. -/
def IntermediateInitialSyncTestCase.run_test (hook : IntermediateInitialSync) (env : IEnv) :
    IResult :=
  let c := syncRestartCycle false hook.use_resync env.cycle
  match c.2 with
  | CallRes.errOp => ⟨hook, c.1, Outcome.raisedOp⟩
  | CallRes.errOther => ⟨hook, c.1, Outcome.raisedOther⟩
  | CallRes.success =>
    let tr := c.1 ++ [Event.waitCmd waitForSecondaryTimeout]
    match env.waitRes with
    | CallRes.errOp => ⟨hook, tr, Outcome.raisedOp⟩
    | CallRes.errOther => ⟨hook, tr, Outcome.raisedOther⟩
    | CallRes.success =>
      let tr := tr ++ [Event.validate]
      match env.validatorRes with
      | CallRes.errOp => ⟨hook, tr, Outcome.raisedOp⟩
      | CallRes.errOther => ⟨hook, tr, Outcome.raisedOther⟩
      | CallRes.success => ⟨hook, tr, Outcome.normal⟩

/-- `IntermediateInitialSync.after_test`: if `_should_run_after_test` reports
`false`, return without creating the dynamic test case (no actions, normal
return); otherwise run the dynamic test case's `run_test`. -/
def IntermediateInitialSync.after_test (hook : IntermediateInitialSync) (env : IEnv) : IResult :=
  match IntermediateInitialSync.should_run_after_test hook with
  | (hook, false) => ⟨hook, [], Outcome.normal⟩
  | (hook, true) => IntermediateInitialSyncTestCase.run_test hook env

/-! ### Helper lemmas about the sync-restart cycle -/

lemma cycle_mem (w u : Bool) (c : CycleEnv) (e : Event) :
    e ∈ (syncRestartCycle w u c).1 →
      e = Event.cycleStart ∨ e = Event.resyncCmd w ∨ e = Event.teardown ∨
        e = Event.setupNode ∨ e = Event.awaitReady := by
  unfold syncRestartCycle
  cases u <;> cases c.teardownRes <;> cases c.setupRes <;> simp <;> tauto

lemma faultInject_not_mem_cycle (w u : Bool) (c : CycleEnv) :
    Event.faultInject ∉ (syncRestartCycle w u c).1 := by
  intro h
  rcases cycle_mem w u c _ h with h | h | h | h | h <;> exact absurd h (by simp)

lemma validate_not_mem_cycle (w u : Bool) (c : CycleEnv) :
    Event.validate ∉ (syncRestartCycle w u c).1 := by
  intro h
  rcases cycle_mem w u c _ h with h | h | h | h | h <;> exact absurd h (by simp)

lemma cycleStart_mem_cycle (w u : Bool) (c : CycleEnv) :
    Event.cycleStart ∈ (syncRestartCycle w u c).1 := by
  unfold syncRestartCycle
  cases u <;> cases c.teardownRes <;> cases c.setupRes <;> simp

/-! ### Frame lemmas for the Background hook -/

lemma runTestFrom_fields (hook : BackgroundInitialSync) (env : BEnv) (tr : List Event) :
    (runTestFrom hook env tr).state.n = hook.n
      ∧ (runTestFrom hook env tr).state.use_resync = hook.use_resync
      ∧ (runTestFrom hook env tr).state.tests_run = hook.tests_run := by
  unfold runTestFrom
  cases env.queryRes with
  | ok s =>
    dsimp only
    split
    · split
      · exact ⟨rfl, rfl, rfl⟩
      · split
        · cases (syncRestartCycle true hook.use_resync env.faultCycle).2 <;> exact ⟨rfl, rfl, rfl⟩
        · exact ⟨rfl, rfl, rfl⟩
    · cases env.validatorRes with
      | success =>
        cases (syncRestartCycle true hook.use_resync env.finalCycle).2 <;> exact ⟨rfl, rfl, rfl⟩
      | errOp => exact ⟨rfl, rfl, rfl⟩
      | errOther => exact ⟨rfl, rfl, rfl⟩
  | errOp b => exact ⟨rfl, rfl, rfl⟩
  | errOther => exact ⟨rfl, rfl, rfl⟩

lemma run_test_tests_run (hook : BackgroundInitialSync) (env : BEnv) :
    (BackgroundInitialSyncTestCase.run_test hook env).state.tests_run
      = if hook.n ≤ hook.tests_run then 0 else hook.tests_run := by
  unfold BackgroundInitialSyncTestCase.run_test
  split
  · cases env.waitRes
    · exact (runTestFrom_fields _ _ _).2.2
    · rfl
    · rfl
  · exact (runTestFrom_fields _ _ _).2.2

lemma after_test_tests_run (hook : BackgroundInitialSync) (env : BEnv) :
    (hook.after_test env).state.tests_run
      = if hook.n ≤ hook.tests_run + 1 then 0 else hook.tests_run + 1 := by
  unfold BackgroundInitialSync.after_test
  exact run_test_tests_run _ _

lemma run_test_n (hook : BackgroundInitialSync) (env : BEnv) :
    (BackgroundInitialSyncTestCase.run_test hook env).state.n = hook.n := by
  unfold BackgroundInitialSyncTestCase.run_test
  split
  · cases env.waitRes
    · exact (runTestFrom_fields _ _ _).1
    · rfl
    · rfl
  · exact (runTestFrom_fields _ _ _).1

lemma after_test_n (hook : BackgroundInitialSync) (env : BEnv) :
    (hook.after_test env).state.n = hook.n := run_test_n _ _

/-! ### Branch-reduction lemmas for `runTestFrom` -/

lemma runTestFrom_errOp (hook : BackgroundInitialSync) (env : BEnv) (tr : List Event) (b : Bool)
    (h : env.queryRes = QueryRes.errOp b) :
    runTestFrom hook env tr
      = ⟨hook, tr ++ [Event.statusQuery (QueryRes.errOp b)], Outcome.normal⟩ := by
  unfold runTestFrom
  rw [h]

lemma runTestFrom_errOther (hook : BackgroundInitialSync) (env : BEnv) (tr : List Event)
    (h : env.queryRes = QueryRes.errOther) :
    runTestFrom hook env tr
      = ⟨hook, tr ++ [Event.statusQuery QueryRes.errOther], Outcome.raisedOther⟩ := by
  unfold runTestFrom
  rw [h]

lemma runTestFrom_threshold_failure (hook : BackgroundInitialSync) (env : BEnv) (tr : List Event)
    (s : Int) (hq : env.queryRes = QueryRes.ok s) (hs : s ≠ 2) (ht : hook.tests_run = 0) :
    runTestFrom hook env tr
      = ⟨hook, tr ++ [Event.statusQuery (QueryRes.ok s)], Outcome.testFailure notCaughtUpMsg⟩ := by
  unfold runTestFrom
  rw [hq]
  dsimp only
  rw [if_pos hs, if_pos ht]

lemma runTestFrom_fault (hook : BackgroundInitialSync) (env : BEnv) (tr : List Event)
    (s : Int) (hq : env.queryRes = QueryRes.ok s) (hs : s ≠ 2) (ht : hook.tests_run ≠ 0)
    (hguard : hook.random_restarts < 1 ∧ env.randHit = true) :
    runTestFrom hook env tr
      = match (syncRestartCycle true hook.use_resync env.faultCycle).2 with
        | CallRes.success =>
            ⟨{ hook with random_restarts := hook.random_restarts + 1 },
              (tr ++ [Event.statusQuery (QueryRes.ok s)])
                ++ Event.faultInject :: (syncRestartCycle true hook.use_resync env.faultCycle).1,
              Outcome.normal⟩
        | CallRes.errOp =>
            ⟨hook,
              (tr ++ [Event.statusQuery (QueryRes.ok s)])
                ++ Event.faultInject :: (syncRestartCycle true hook.use_resync env.faultCycle).1,
              Outcome.normal⟩
        | CallRes.errOther =>
            ⟨hook,
              (tr ++ [Event.statusQuery (QueryRes.ok s)])
                ++ Event.faultInject :: (syncRestartCycle true hook.use_resync env.faultCycle).1,
              Outcome.raisedOther⟩ := by
  unfold runTestFrom
  rw [hq]
  dsimp only
  rw [if_pos hs, if_neg ht, if_pos hguard]

lemma runTestFrom_skip (hook : BackgroundInitialSync) (env : BEnv) (tr : List Event)
    (s : Int) (hq : env.queryRes = QueryRes.ok s) (hs : s ≠ 2) (ht : hook.tests_run ≠ 0)
    (hguard : ¬(hook.random_restarts < 1 ∧ env.randHit = true)) :
    runTestFrom hook env tr
      = ⟨hook, tr ++ [Event.statusQuery (QueryRes.ok s)], Outcome.normal⟩ := by
  unfold runTestFrom
  rw [hq]
  dsimp only
  rw [if_pos hs, if_neg ht, if_neg hguard]

lemma runTestFrom_secondary (hook : BackgroundInitialSync) (env : BEnv) (tr : List Event)
    (hq : env.queryRes = QueryRes.ok 2) :
    runTestFrom hook env tr
      = match env.validatorRes with
        | CallRes.errOp =>
            ⟨{ hook with random_restarts := 0 },
              (tr ++ [Event.statusQuery (QueryRes.ok 2)]) ++ [Event.validate], Outcome.raisedOp⟩
        | CallRes.errOther =>
            ⟨{ hook with random_restarts := 0 },
              (tr ++ [Event.statusQuery (QueryRes.ok 2)]) ++ [Event.validate], Outcome.raisedOther⟩
        | CallRes.success =>
            match (syncRestartCycle true hook.use_resync env.finalCycle).2 with
            | CallRes.success =>
                ⟨{ hook with random_restarts := 0 },
                  ((tr ++ [Event.statusQuery (QueryRes.ok 2)]) ++ [Event.validate])
                    ++ (syncRestartCycle true hook.use_resync env.finalCycle).1,
                  Outcome.normal⟩
            | CallRes.errOp =>
                ⟨{ hook with random_restarts := 0 },
                  ((tr ++ [Event.statusQuery (QueryRes.ok 2)]) ++ [Event.validate])
                    ++ (syncRestartCycle true hook.use_resync env.finalCycle).1,
                  Outcome.raisedOp⟩
            | CallRes.errOther =>
                ⟨{ hook with random_restarts := 0 },
                  ((tr ++ [Event.statusQuery (QueryRes.ok 2)]) ++ [Event.validate])
                    ++ (syncRestartCycle true hook.use_resync env.finalCycle).1,
                  Outcome.raisedOther⟩ := by
  unfold runTestFrom
  rw [hq]
  dsimp only
  rw [if_neg (by simp : ¬((2 : Int) ≠ 2))]

/-! ### Reduction lemmas for `after_test` -/

lemma after_test_fired (hook : BackgroundInitialSync) (env : BEnv)
    (h : hook.n ≤ hook.tests_run + 1) :
    hook.after_test env
      = match env.waitRes with
        | CallRes.success =>
            runTestFrom { hook with tests_run := 0 } env [Event.waitCmd waitForSecondaryTimeout]
        | CallRes.errOp =>
            ⟨{ hook with tests_run := 0 }, [Event.waitCmd waitForSecondaryTimeout],
              Outcome.raisedOp⟩
        | CallRes.errOther =>
            ⟨{ hook with tests_run := 0 }, [Event.waitCmd waitForSecondaryTimeout],
              Outcome.raisedOther⟩ := by
  unfold BackgroundInitialSync.after_test BackgroundInitialSyncTestCase.run_test
  rw [if_pos h]

lemma after_test_not_fired (hook : BackgroundInitialSync) (env : BEnv)
    (h : ¬hook.n ≤ hook.tests_run + 1) :
    hook.after_test env = runTestFrom { hook with tests_run := hook.tests_run + 1 } env [] := by
  unfold BackgroundInitialSync.after_test BackgroundInitialSyncTestCase.run_test
  rw [if_neg h]

/-! ### `random_restarts` characterization -/

lemma statusQuery_not_mem_cycle (r : QueryRes) (w u : Bool) (c : CycleEnv) :
    Event.statusQuery r ∉ (syncRestartCycle w u c).1 := by
  intro h
  rcases cycle_mem w u c _ h with h | h | h | h | h <;> exact absurd h (by simp)

lemma runTestFrom_rr_cases (hook : BackgroundInitialSync) (env : BEnv) (tr : List Event) :
    (runTestFrom hook env tr).state.random_restarts = 0
    ∨ (runTestFrom hook env tr).state.random_restarts = hook.random_restarts
    ∨ ((runTestFrom hook env tr).state.random_restarts = hook.random_restarts + 1
        ∧ hook.random_restarts < 1 ∧ Event.faultInject ∈ (runTestFrom hook env tr).trace) := by
  cases hq : env.queryRes with
  | errOp b => rw [runTestFrom_errOp hook env tr b hq]; right; left; rfl
  | errOther => rw [runTestFrom_errOther hook env tr hq]; right; left; rfl
  | ok s =>
    by_cases hs : s = 2
    · subst hs
      rw [runTestFrom_secondary hook env tr hq]
      cases env.validatorRes with
      | success =>
        cases (syncRestartCycle true hook.use_resync env.finalCycle).2 <;> exact Or.inl rfl
      | errOp => exact Or.inl rfl
      | errOther => exact Or.inl rfl
    · by_cases ht : hook.tests_run = 0
      · rw [runTestFrom_threshold_failure hook env tr s hq hs ht]; right; left; rfl
      · by_cases hg : hook.random_restarts < 1 ∧ env.randHit = true
        · rw [runTestFrom_fault hook env tr s hq hs ht hg]
          cases (syncRestartCycle true hook.use_resync env.faultCycle).2 with
          | success => exact Or.inr (Or.inr ⟨rfl, hg.1, by simp⟩)
          | errOp => right; left; rfl
          | errOther => right; left; rfl
        · rw [runTestFrom_skip hook env tr s hq hs ht hg]; right; left; rfl

lemma after_test_rr_cases (hook : BackgroundInitialSync) (env : BEnv) :
    (hook.after_test env).state.random_restarts = 0
    ∨ (hook.after_test env).state.random_restarts = hook.random_restarts
    ∨ ((hook.after_test env).state.random_restarts = hook.random_restarts + 1
        ∧ hook.random_restarts < 1 ∧ Event.faultInject ∈ (hook.after_test env).trace) := by
  by_cases h : hook.n ≤ hook.tests_run + 1
  · rw [after_test_fired hook env h]
    cases env.waitRes with
    | success => exact runTestFrom_rr_cases { hook with tests_run := 0 } env _
    | errOp => right; left; rfl
    | errOther => right; left; rfl
  · rw [after_test_not_fired hook env h]
    exact runTestFrom_rr_cases { hook with tests_run := hook.tests_run + 1 } env []

lemma runTestFrom_faultInject_inv (hook : BackgroundInitialSync) (env : BEnv) (tr : List Event)
    (htr : Event.faultInject ∉ tr)
    (h : Event.faultInject ∈ (runTestFrom hook env tr).trace) :
    hook.random_restarts < 1 ∧ env.randHit = true ∧ hook.tests_run ≠ 0
      ∧ ∃ s, env.queryRes = QueryRes.ok s ∧ s ≠ 2 := by
  cases hq : env.queryRes with
  | errOp b =>
    rw [runTestFrom_errOp hook env tr b hq] at h
    simp only [List.mem_append, List.mem_singleton] at h
    rcases h with h | h
    · exact absurd h htr
    · exact absurd h (by simp)
  | errOther =>
    rw [runTestFrom_errOther hook env tr hq] at h
    simp only [List.mem_append, List.mem_singleton] at h
    rcases h with h | h
    · exact absurd h htr
    · exact absurd h (by simp)
  | ok s =>
    by_cases hs : s = 2
    · subst hs
      rw [runTestFrom_secondary hook env tr hq] at h
      cases hv : env.validatorRes with
      | success =>
        rw [hv] at h
        cases hc : (syncRestartCycle true hook.use_resync env.finalCycle).2 <;>
          · rw [hc] at h
            simp only [List.mem_append, List.mem_singleton] at h
            rcases h with ((h | h) | h) | h
            · exact absurd h htr
            · exact absurd h (by simp)
            · exact absurd h (by simp)
            · exact absurd h (faultInject_not_mem_cycle _ _ _)
      | errOp =>
        rw [hv] at h
        simp only [List.mem_append, List.mem_singleton] at h
        rcases h with (h | h) | h
        · exact absurd h htr
        · exact absurd h (by simp)
        · exact absurd h (by simp)
      | errOther =>
        rw [hv] at h
        simp only [List.mem_append, List.mem_singleton] at h
        rcases h with (h | h) | h
        · exact absurd h htr
        · exact absurd h (by simp)
        · exact absurd h (by simp)
    · by_cases ht : hook.tests_run = 0
      · rw [runTestFrom_threshold_failure hook env tr s hq hs ht] at h
        simp only [List.mem_append, List.mem_singleton] at h
        rcases h with h | h
        · exact absurd h htr
        · exact absurd h (by simp)
      · by_cases hg : hook.random_restarts < 1 ∧ env.randHit = true
        · exact ⟨hg.1, hg.2, ht, s, rfl, hs⟩
        · rw [runTestFrom_skip hook env tr s hq hs ht hg] at h
          simp only [List.mem_append, List.mem_singleton] at h
          rcases h with h | h
          · exact absurd h htr
          · exact absurd h (by simp)

lemma after_test_faultInject_inv (hook : BackgroundInitialSync) (env : BEnv)
    (h : Event.faultInject ∈ (hook.after_test env).trace) :
    ¬hook.n ≤ hook.tests_run + 1 ∧ hook.random_restarts < 1 ∧ env.randHit = true
      ∧ ∃ s, env.queryRes = QueryRes.ok s ∧ s ≠ 2 := by
  by_cases hth : hook.n ≤ hook.tests_run + 1
  · rw [after_test_fired hook env hth] at h
    cases hw : env.waitRes with
    | success =>
      rw [hw] at h
      have hinv := runTestFrom_faultInject_inv { hook with tests_run := 0 } env _ (by simp) h
      exact absurd rfl hinv.2.2.1
    | errOp => rw [hw] at h; simp at h
    | errOther => rw [hw] at h; simp at h
  · rw [after_test_not_fired hook env hth] at h
    have hinv := runTestFrom_faultInject_inv { hook with tests_run := hook.tests_run + 1 } env
      [] (by simp) h
    exact ⟨hth, hinv.1, hinv.2.1, hinv.2.2.2⟩

/-! ### Trace-shape lemmas -/

lemma runTestFrom_trace_shape (hook : BackgroundInitialSync) (env : BEnv) (tr : List Event) :
    ∃ rest, (runTestFrom hook env tr).trace = tr ++ Event.statusQuery env.queryRes :: rest
      ∧ ∀ r, Event.statusQuery r ∉ rest := by
  cases hq : env.queryRes with
  | errOp b =>
    rw [runTestFrom_errOp hook env tr b hq]
    exact ⟨[], by simp, by simp⟩
  | errOther =>
    rw [runTestFrom_errOther hook env tr hq]
    exact ⟨[], by simp, by simp⟩
  | ok s =>
    by_cases hs : s = 2
    · subst hs
      rw [runTestFrom_secondary hook env tr hq]
      cases hv : env.validatorRes with
      | success =>
        cases hc : (syncRestartCycle true hook.use_resync env.finalCycle).2 <;>
          exact ⟨Event.validate :: (syncRestartCycle true hook.use_resync env.finalCycle).1,
            by simp, fun r => by
              simp only [List.mem_cons]
              push_neg
              exact ⟨by simp, statusQuery_not_mem_cycle r true hook.use_resync env.finalCycle⟩⟩
      | errOp => exact ⟨[Event.validate], by simp, by simp⟩
      | errOther => exact ⟨[Event.validate], by simp, by simp⟩
    · by_cases ht : hook.tests_run = 0
      · rw [runTestFrom_threshold_failure hook env tr s hq hs ht]
        exact ⟨[], by simp, by simp⟩
      · by_cases hg : hook.random_restarts < 1 ∧ env.randHit = true
        · rw [runTestFrom_fault hook env tr s hq hs ht hg]
          cases hc : (syncRestartCycle true hook.use_resync env.faultCycle).2 <;>
            exact ⟨Event.faultInject :: (syncRestartCycle true hook.use_resync env.faultCycle).1,
              by simp, fun r => by
                simp only [List.mem_cons]
                push_neg
                exact ⟨by simp, statusQuery_not_mem_cycle r true hook.use_resync env.faultCycle⟩⟩
        · rw [runTestFrom_skip hook env tr s hq hs ht hg]
          exact ⟨[], by simp, by simp⟩

lemma after_test_query_reached (hook : BackgroundInitialSync) (env : BEnv) (r : QueryRes)
    (h : Event.statusQuery r ∈ (hook.after_test env).trace) :
    env.queryRes = r ∧ (hook.n ≤ hook.tests_run + 1 → env.waitRes = CallRes.success) := by
  by_cases hth : hook.n ≤ hook.tests_run + 1
  · rw [after_test_fired hook env hth] at h
    cases hw : env.waitRes with
    | success =>
      rw [hw] at h
      obtain ⟨rest, heq, hno⟩ := runTestFrom_trace_shape { hook with tests_run := 0 } env
        [Event.waitCmd waitForSecondaryTimeout]
      rw [heq] at h
      simp only [List.mem_append, List.mem_cons, List.mem_singleton] at h
      rcases h with h | h | h
      · exact absurd h (by simp)
      · simp only [Event.statusQuery.injEq] at h
        exact ⟨h.symm, fun _ => rfl⟩
      · exact absurd h (hno r)
    | errOp => rw [hw] at h; simp at h
    | errOther => rw [hw] at h; simp at h
  · rw [after_test_not_fired hook env hth] at h
    obtain ⟨rest, heq, hno⟩ := runTestFrom_trace_shape { hook with tests_run := hook.tests_run + 1 }
      env []
    rw [heq] at h
    simp only [List.nil_append, List.mem_cons] at h
    rcases h with h | h
    · simp only [Event.statusQuery.injEq] at h
      exact ⟨h.symm, fun hf => absurd hf hth⟩
    · exact absurd h (hno r)

lemma runTestFrom_validate_inv (hook : BackgroundInitialSync) (env : BEnv) (tr : List Event)
    (htr : Event.validate ∉ tr)
    (h : Event.validate ∈ (runTestFrom hook env tr).trace) :
    env.queryRes = QueryRes.ok 2
      ∧ ((runTestFrom hook env tr).trace
            = tr ++ [Event.statusQuery (QueryRes.ok 2), Event.validate]
          ∨ (runTestFrom hook env tr).trace
              = tr ++ Event.statusQuery (QueryRes.ok 2) :: Event.validate
                  :: (syncRestartCycle true hook.use_resync env.finalCycle).1) := by
  cases hq : env.queryRes with
  | errOp b =>
    rw [runTestFrom_errOp hook env tr b hq] at h
    simp only [List.mem_append, List.mem_singleton] at h
    rcases h with h | h
    · exact absurd h htr
    · exact absurd h (by simp)
  | errOther =>
    rw [runTestFrom_errOther hook env tr hq] at h
    simp only [List.mem_append, List.mem_singleton] at h
    rcases h with h | h
    · exact absurd h htr
    · exact absurd h (by simp)
  | ok s =>
    by_cases hs : s = 2
    · subst hs
      rw [runTestFrom_secondary hook env tr hq]
      cases hv : env.validatorRes with
      | success =>
        cases hc : (syncRestartCycle true hook.use_resync env.finalCycle).2 <;>
          exact ⟨rfl, Or.inr (by simp)⟩
      | errOp => exact ⟨rfl, Or.inl (by simp)⟩
      | errOther => exact ⟨rfl, Or.inl (by simp)⟩
    · by_cases ht : hook.tests_run = 0
      · rw [runTestFrom_threshold_failure hook env tr s hq hs ht] at h
        simp only [List.mem_append, List.mem_singleton] at h
        rcases h with h | h
        · exact absurd h htr
        · exact absurd h (by simp)
      · by_cases hg : hook.random_restarts < 1 ∧ env.randHit = true
        · rw [runTestFrom_fault hook env tr s hq hs ht hg] at h
          cases hc : (syncRestartCycle true hook.use_resync env.faultCycle).2 <;>
            · rw [hc] at h
              simp only [List.mem_append, List.mem_cons, List.mem_singleton] at h
              rcases h with (h | h) | h | h
              · exact absurd h htr
              · exact absurd h (by simp)
              · exact absurd h (by simp)
              · exact absurd h (validate_not_mem_cycle _ _ _)
        · rw [runTestFrom_skip hook env tr s hq hs ht hg] at h
          simp only [List.mem_append, List.mem_singleton] at h
          rcases h with h | h
          · exact absurd h htr
          · exact absurd h (by simp)

lemma after_test_validate_shape (hook : BackgroundInitialSync) (env : BEnv)
    (h : Event.validate ∈ (hook.after_test env).trace) :
    env.queryRes = QueryRes.ok 2
      ∧ ∃ pre post, (hook.after_test env).trace
          = pre ++ Event.statusQuery (QueryRes.ok 2) :: Event.validate :: post
        ∧ (∀ e ∈ pre, e = Event.waitCmd waitForSecondaryTimeout)
        ∧ (post = [] ∨ post = (syncRestartCycle true hook.use_resync env.finalCycle).1) := by
  by_cases hth : hook.n ≤ hook.tests_run + 1
  · rw [after_test_fired hook env hth] at h ⊢
    cases hw : env.waitRes with
    | success =>
      rw [hw] at h
      obtain ⟨hq, htr⟩ := runTestFrom_validate_inv { hook with tests_run := 0 } env
        [Event.waitCmd waitForSecondaryTimeout] (by simp) h
      refine ⟨hq, [Event.waitCmd waitForSecondaryTimeout], ?_⟩
      rcases htr with htr | htr
      · exact ⟨[], by simpa using htr, by simp, Or.inl rfl⟩
      · exact ⟨(syncRestartCycle true hook.use_resync env.finalCycle).1, htr, by simp,
          Or.inr rfl⟩
    | errOp => rw [hw] at h; simp at h
    | errOther => rw [hw] at h; simp at h
  · rw [after_test_not_fired hook env hth] at h ⊢
    obtain ⟨hq, htr⟩ := runTestFrom_validate_inv { hook with tests_run := hook.tests_run + 1 }
      env [] (by simp) h
    refine ⟨hq, [], ?_⟩
    rcases htr with htr | htr
    · exact ⟨[], by simpa using htr, by simp, Or.inl rfl⟩
    · exact ⟨(syncRestartCycle true hook.use_resync env.finalCycle).1, by simpa using htr,
        by simp, Or.inr rfl⟩

lemma runTestFrom_cycleStart_inv (hook : BackgroundInitialSync) (env : BEnv) (tr : List Event)
    (htr : Event.cycleStart ∉ tr)
    (hf : Event.faultInject ∉ (runTestFrom hook env tr).trace)
    (hc : Event.cycleStart ∈ (runTestFrom hook env tr).trace) :
    Event.validate ∈ (runTestFrom hook env tr).trace := by
  cases hq : env.queryRes with
  | errOp b =>
    rw [runTestFrom_errOp hook env tr b hq] at hc
    simp only [List.mem_append, List.mem_singleton] at hc
    rcases hc with hc | hc
    · exact absurd hc htr
    · exact absurd hc (by simp)
  | errOther =>
    rw [runTestFrom_errOther hook env tr hq] at hc
    simp only [List.mem_append, List.mem_singleton] at hc
    rcases hc with hc | hc
    · exact absurd hc htr
    · exact absurd hc (by simp)
  | ok s =>
    by_cases hs : s = 2
    · subst hs
      rw [runTestFrom_secondary hook env tr hq]
      cases hv : env.validatorRes with
      | success =>
        cases hcy : (syncRestartCycle true hook.use_resync env.finalCycle).2 <;> simp
      | errOp => simp
      | errOther => simp
    · by_cases ht : hook.tests_run = 0
      · rw [runTestFrom_threshold_failure hook env tr s hq hs ht] at hc
        simp only [List.mem_append, List.mem_singleton] at hc
        rcases hc with hc | hc
        · exact absurd hc htr
        · exact absurd hc (by simp)
      · by_cases hg : hook.random_restarts < 1 ∧ env.randHit = true
        · exfalso
          apply hf
          rw [runTestFrom_fault hook env tr s hq hs ht hg]
          cases hcy : (syncRestartCycle true hook.use_resync env.faultCycle).2 <;> simp
        · rw [runTestFrom_skip hook env tr s hq hs ht hg] at hc
          simp only [List.mem_append, List.mem_singleton] at hc
          rcases hc with hc | hc
          · exact absurd hc htr
          · exact absurd hc (by simp)

lemma after_test_cycleStart_validate (hook : BackgroundInitialSync) (env : BEnv)
    (hc : Event.cycleStart ∈ (hook.after_test env).trace)
    (hf : Event.faultInject ∉ (hook.after_test env).trace) :
    Event.validate ∈ (hook.after_test env).trace := by
  by_cases hth : hook.n ≤ hook.tests_run + 1
  · rw [after_test_fired hook env hth] at hc hf ⊢
    cases hw : env.waitRes with
    | success =>
      rw [hw] at hc hf
      exact runTestFrom_cycleStart_inv _ env _ (by simp) hf hc
    | errOp => rw [hw] at hc; simp at hc
    | errOther => rw [hw] at hc; simp at hc
  · rw [after_test_not_fired hook env hth] at hc hf ⊢
    exact runTestFrom_cycleStart_inv _ env [] (by simp) hf hc

/-! ### Lemmas for the Intermediate hook -/

lemma iafter_test_below (hook : IntermediateInitialSync) (env : IEnv)
    (h : hook.tests_run + 1 < hook.n) :
    hook.after_test env
      = ⟨{ hook with tests_run := hook.tests_run + 1 }, [], Outcome.normal⟩ := by
  unfold IntermediateInitialSync.after_test IntermediateInitialSync.should_run_after_test
  dsimp only
  rw [if_pos h]

lemma iafter_test_fired (hook : IntermediateInitialSync) (env : IEnv)
    (h : ¬hook.tests_run + 1 < hook.n) :
    hook.after_test env
      = IntermediateInitialSyncTestCase.run_test { hook with tests_run := 0 } env := by
  unfold IntermediateInitialSync.after_test IntermediateInitialSync.should_run_after_test
  dsimp only
  rw [if_neg h]


lemma irun_test_state (hook : IntermediateInitialSync) (env : IEnv) :
    (IntermediateInitialSyncTestCase.run_test hook env).state = hook := by
  simp only [IntermediateInitialSyncTestCase.run_test]
  cases (syncRestartCycle false hook.use_resync env.cycle).2 with
  | success =>
    cases env.waitRes with
    | success => cases env.validatorRes <;> rfl
    | errOp => rfl
    | errOther => rfl
  | errOp => rfl
  | errOther => rfl

lemma irun_test_trace_cases (hook : IntermediateInitialSync) (env : IEnv) :
    (IntermediateInitialSyncTestCase.run_test hook env).trace
        = (syncRestartCycle false hook.use_resync env.cycle).1
    ∨ (IntermediateInitialSyncTestCase.run_test hook env).trace
        = (syncRestartCycle false hook.use_resync env.cycle).1
            ++ [Event.waitCmd waitForSecondaryTimeout]
    ∨ ((IntermediateInitialSyncTestCase.run_test hook env).trace
        = (syncRestartCycle false hook.use_resync env.cycle).1
            ++ [Event.waitCmd waitForSecondaryTimeout, Event.validate]
        ∧ (syncRestartCycle false hook.use_resync env.cycle).2 = CallRes.success
        ∧ env.waitRes = CallRes.success) := by
  simp only [IntermediateInitialSyncTestCase.run_test]
  cases hc : (syncRestartCycle false hook.use_resync env.cycle).2 with
  | success =>
    cases hw : env.waitRes with
    | success =>
      cases env.validatorRes <;> exact Or.inr (Or.inr ⟨by simp, rfl, rfl⟩)
    | errOp => exact Or.inr (Or.inl rfl)
    | errOther => exact Or.inr (Or.inl rfl)
  | errOp => exact Or.inl rfl
  | errOther => exact Or.inl rfl

lemma iafter_test_no_faultInject (hook : IntermediateInitialSync) (env : IEnv) :
    Event.faultInject ∉ (hook.after_test env).trace := by
  by_cases h : hook.tests_run + 1 < hook.n
  · rw [iafter_test_below hook env h]
    simp
  · rw [iafter_test_fired hook env h]
    rcases irun_test_trace_cases { hook with tests_run := 0 } env with ht | ht | ⟨ht, _, _⟩ <;>
      · rw [ht]
        simp [faultInject_not_mem_cycle]

lemma iafter_test_validate_inv (hook : IntermediateInitialSync) (env : IEnv)
    (h : Event.validate ∈ (hook.after_test env).trace) :
    env.waitRes = CallRes.success
      ∧ ∃ pre, (hook.after_test env).trace
          = pre ++ [Event.waitCmd waitForSecondaryTimeout, Event.validate] := by
  by_cases hb : hook.tests_run + 1 < hook.n
  · rw [iafter_test_below hook env hb] at h
    simp at h
  · rw [iafter_test_fired hook env hb] at h ⊢
    rcases irun_test_trace_cases { hook with tests_run := 0 } env with ht | ht | ⟨ht, _, hw⟩
    · rw [ht] at h
      exact absurd h (validate_not_mem_cycle _ _ _)
    · rw [ht] at h
      simp only [List.mem_append, List.mem_singleton] at h
      rcases h with h | h
      · exact absurd h (validate_not_mem_cycle _ _ _)
      · exact absurd h (by simp)
    · exact ⟨hw, (syncRestartCycle false hook.use_resync env.cycle).1, ht⟩

/-! ### Further reduction helpers -/

lemma after_test_fired_waitOk (hook : BackgroundInitialSync) (env : BEnv)
    (hth : hook.n ≤ hook.tests_run + 1) (hw : env.waitRes = CallRes.success) :
    hook.after_test env
      = runTestFrom { hook with tests_run := 0 } env [Event.waitCmd waitForSecondaryTimeout] := by
  rw [after_test_fired hook env hth, hw]

lemma after_test_fired_waitErrOp (hook : BackgroundInitialSync) (env : BEnv)
    (hth : hook.n ≤ hook.tests_run + 1) (hw : env.waitRes = CallRes.errOp) :
    hook.after_test env
      = ⟨{ hook with tests_run := 0 }, [Event.waitCmd waitForSecondaryTimeout],
          Outcome.raisedOp⟩ := by
  rw [after_test_fired hook env hth, hw]

lemma after_test_fired_waitErrOther (hook : BackgroundInitialSync) (env : BEnv)
    (hth : hook.n ≤ hook.tests_run + 1) (hw : env.waitRes = CallRes.errOther) :
    hook.after_test env
      = ⟨{ hook with tests_run := 0 }, [Event.waitCmd waitForSecondaryTimeout],
          Outcome.raisedOther⟩ := by
  rw [after_test_fired hook env hth, hw]

lemma runTestFrom_rr_noSecondary (hook : BackgroundInitialSync) (env : BEnv) (tr : List Event)
    (h : env.queryRes ≠ QueryRes.ok 2) :
    (runTestFrom hook env tr).state.random_restarts = hook.random_restarts
    ∨ (runTestFrom hook env tr).state.random_restarts = hook.random_restarts + 1 := by
  cases hq : env.queryRes with
  | errOp b => rw [runTestFrom_errOp hook env tr b hq]; left; rfl
  | errOther => rw [runTestFrom_errOther hook env tr hq]; left; rfl
  | ok s =>
    have hs : s ≠ 2 := fun h2 => h (by rw [hq, h2])
    by_cases ht : hook.tests_run = 0
    · rw [runTestFrom_threshold_failure hook env tr s hq hs ht]; left; rfl
    · by_cases hg : hook.random_restarts < 1 ∧ env.randHit = true
      · rw [runTestFrom_fault hook env tr s hq hs ht hg]
        cases (syncRestartCycle true hook.use_resync env.faultCycle).2 with
        | success => right; rfl
        | errOp => left; rfl
        | errOther => left; rfl
      · rw [runTestFrom_skip hook env tr s hq hs ht hg]; left; rfl

lemma after_test_rr_noSecondary (hook : BackgroundInitialSync) (env : BEnv)
    (h : env.queryRes ≠ QueryRes.ok 2) :
    (hook.after_test env).state.random_restarts = hook.random_restarts
    ∨ (hook.after_test env).state.random_restarts = hook.random_restarts + 1 := by
  by_cases hth : hook.n ≤ hook.tests_run + 1
  · cases hw : env.waitRes with
    | success =>
      rw [after_test_fired_waitOk hook env hth hw]
      exact runTestFrom_rr_noSecondary { hook with tests_run := 0 } env _ h
    | errOp => rw [after_test_fired_waitErrOp hook env hth hw]; left; rfl
    | errOther => rw [after_test_fired_waitErrOther hook env hth hw]; left; rfl
  · rw [after_test_not_fired hook env hth]
    exact runTestFrom_rr_noSecondary { hook with tests_run := hook.tests_run + 1 } env [] h

lemma after_test_rr_errOp (hook : BackgroundInitialSync) (env : BEnv) (b : Bool)
    (hq : env.queryRes = QueryRes.errOp b) :
    (hook.after_test env).state.random_restarts = hook.random_restarts := by
  by_cases hth : hook.n ≤ hook.tests_run + 1
  · cases hw : env.waitRes with
    | success =>
      rw [after_test_fired_waitOk hook env hth hw, runTestFrom_errOp _ env _ b hq]
    | errOp => rw [after_test_fired_waitErrOp hook env hth hw]
    | errOther => rw [after_test_fired_waitErrOther hook env hth hw]
  · rw [after_test_not_fired hook env hth, runTestFrom_errOp _ env _ b hq]

lemma runList_tests_run_le (n : Nat) :
    ∀ (envs : List BEnv) (hook : BackgroundInitialSync),
      hook.n = n → hook.tests_run ≤ n - 1 →
        (BackgroundInitialSync.runList hook envs).tests_run ≤ n - 1 := by
  intro envs
  induction envs with
  | nil =>
    intro hook hN hle
    simpa [BackgroundInitialSync.runList] using hle
  | cons e es ih =>
    intro hook hN hle
    rw [BackgroundInitialSync.runList]
    apply ih
    · rw [after_test_n, hN]
    · rw [after_test_tests_run, hN]
      split <;> omega

lemma runList_rr_le :
    ∀ (envs : List BEnv) (hook : BackgroundInitialSync),
      hook.random_restarts ≤ 1 →
        (BackgroundInitialSync.runList hook envs).random_restarts ≤ 1 := by
  intro envs
  induction envs with
  | nil =>
    intro hook hle
    simpa [BackgroundInitialSync.runList] using hle
  | cons e es ih =>
    intro hook hle
    rw [BackgroundInitialSync.runList]
    apply ih
    rcases after_test_rr_cases hook e with h | h | ⟨h, hlt, _⟩ <;> omega

/-! ### Concrete inputs used by witnesses and counterexamples -/

/-- A cycle environment in which every lifecycle call succeeds. -/
def cycleAllOk : CycleEnv :=
  ⟨CallRes.success, CallRes.success, CallRes.success, CallRes.success⟩

/-- A Background environment: every issued call succeeds and the node reports
SECONDARY. -/
def bEnvAllOk : BEnv :=
  ⟨CallRes.success, QueryRes.ok 2, false, cycleAllOk, CallRes.success, cycleAllOk⟩

/-- Environment whose state query raises the STARTUP-caused
`OperationFailure`. -/
def bEnvStartup : BEnv := { bEnvAllOk with queryRes := QueryRes.errOp true }

/-- Environment whose state query raises an `OperationFailure` that is not the
STARTUP case (e.g. an authorization failure). -/
def bEnvOpFail : BEnv := { bEnvAllOk with queryRes := QueryRes.errOp false }

/-- Environment whose state query reports STARTUP2 (state 5, not SECONDARY). -/
def bEnvSyncing : BEnv := { bEnvAllOk with queryRes := QueryRes.ok 5 }

/-- `bEnvSyncing` with the random draw below 0.2 and a fault-injection restart
cycle whose teardown raises a non-`OperationFailure` error. -/
def bEnvFaultFail : BEnv :=
  { bEnvSyncing with
      randHit := true,
      faultCycle := { cycleAllOk with teardownRes := CallRes.errOther } }

/-- An Intermediate environment in which every issued call succeeds. -/
def iEnvAllOk : IEnv := ⟨cycleAllOk, CallRes.success, CallRes.success⟩

/-! ### Claim theorems -/

/-- C1: for every positive threshold `N`, the Continuous-Sync Monitor resets
`tests_run` to 0 exactly on the invocation in which the incremented counter
satisfies `tests_run >= N` (`after_test` increments, then `run_test` resets),
every invocation leaves `tests_run ≤ N - 1`, and along any run from a fresh
hook the counter never exceeds `N - 1` between resets. -/
theorem background_tests_run_reset_exact (n : Nat) (hn : 1 ≤ n) :
    (∀ (hook : BackgroundInitialSync) (env : BEnv), hook.n = n →
        ((hook.after_test env).state.tests_run
            = if n ≤ hook.tests_run + 1 then 0 else hook.tests_run + 1)
          ∧ (hook.after_test env).state.tests_run ≤ n - 1)
      ∧ ∀ (u : Bool) (envs : List BEnv),
          (BackgroundInitialSync.runList (BackgroundInitialSync.init u n) envs).tests_run
            ≤ n - 1 := by
  constructor
  · intro hook env hN
    have h := after_test_tests_run hook env
    rw [hN] at h
    refine ⟨h, ?_⟩
    rw [h]
    split <;> omega
  · intro u envs
    exact runList_tests_run_le n envs _ rfl (Nat.zero_le _)

/-- Witness for the C1 theorem: `N = 2`, a hook with `tests_run = 1`, an
all-success environment. -/
theorem background_tests_run_reset_exact_witness :
    (((⟨false, 2, 1, 0⟩ : BackgroundInitialSync).after_test bEnvAllOk).state.tests_run
        = if 2 ≤ 1 + 1 then 0 else 1 + 1)
      ∧ ((⟨false, 2, 1, 0⟩ : BackgroundInitialSync).after_test bEnvAllOk).state.tests_run
          ≤ 2 - 1 :=
  (background_tests_run_reset_exact 2 (by decide)).1 ⟨false, 2, 1, 0⟩ bEnvAllOk rfl

/-- C2: in the Continuous-Sync Monitor the fault-injection branch fires only
when `random_restarts < 1`; any increase of `random_restarts` is by exactly 1
and comes from a firing; `random_restarts` is reset to 0 only when the state
query returned SECONDARY (in particular it is unchanged on the
STARTUP/unavailable path); and along any run from a fresh hook
`random_restarts` never exceeds 1. -/
theorem background_random_restarts_cap :
    (∀ (hook : BackgroundInitialSync) (env : BEnv),
        Event.faultInject ∈ (hook.after_test env).trace → hook.random_restarts < 1)
      ∧ (∀ (hook : BackgroundInitialSync) (env : BEnv),
          hook.random_restarts < (hook.after_test env).state.random_restarts →
            (hook.after_test env).state.random_restarts = hook.random_restarts + 1
              ∧ Event.faultInject ∈ (hook.after_test env).trace)
      ∧ (∀ (hook : BackgroundInitialSync) (env : BEnv),
          Event.faultInject ∈ (hook.after_test env).trace →
            (syncRestartCycle true hook.use_resync env.faultCycle).2 = CallRes.success →
              (hook.after_test env).state.random_restarts = hook.random_restarts + 1)
      ∧ (∀ (hook : BackgroundInitialSync) (env : BEnv),
          env.queryRes ≠ QueryRes.ok 2 →
            (hook.after_test env).state.random_restarts = 0 → hook.random_restarts = 0)
      ∧ (∀ (hook : BackgroundInitialSync) (env : BEnv) (b : Bool),
          env.queryRes = QueryRes.errOp b →
            (hook.after_test env).state.random_restarts = hook.random_restarts)
      ∧ ∀ (u : Bool) (n : Nat) (envs : List BEnv),
          (BackgroundInitialSync.runList (BackgroundInitialSync.init u n) envs).random_restarts
            ≤ 1 := by
  refine ⟨?_, ?_, ?_, ?_, ?_, ?_⟩
  · intro hook env h
    exact (after_test_faultInject_inv hook env h).2.1
  · intro hook env h
    rcases after_test_rr_cases hook env with hc | hc | ⟨hc, _, hm⟩
    · omega
    · omega
    · exact ⟨hc, hm⟩
  · intro hook env h
    obtain ⟨hth, hrr, hrand, s, hq, hs⟩ := after_test_faultInject_inv hook env h
    rw [after_test_not_fired hook env hth,
      runTestFrom_fault { hook with tests_run := hook.tests_run + 1 } env [] s hq hs
        (by simp) ⟨hrr, hrand⟩]
    dsimp only
    intro hcy
    rw [hcy]
  · intro hook env hq h0
    rcases after_test_rr_noSecondary hook env hq with hc | hc <;> omega
  · intro hook env b hq
    exact after_test_rr_errOp hook env b hq
  · intro u n envs
    exact runList_rr_le envs _ (Nat.zero_le _)

/-- Witness for the C2 theorem: on the STARTUP/unavailable path
`random_restarts` is unchanged. -/
theorem background_random_restarts_cap_witness :
    ((⟨false, 2, 0, 0⟩ : BackgroundInitialSync).after_test bEnvStartup).state.random_restarts
      = (⟨false, 2, 0, 0⟩ : BackgroundInitialSync).random_restarts :=
  background_random_restarts_cap.2.2.2.2.1 ⟨false, 2, 0, 0⟩ bEnvStartup true rfl

/-- C3: when the threshold fired in this invocation (so `tests_run` is 0 at
the check) and the state query returns a state other than SECONDARY, the hook
raises `errors.TestFailure` with the descriptive message, performing no
further action after the query. -/
theorem background_threshold_noncatchup_fatal (hook : BackgroundInitialSync) (env : BEnv)
    (s : Int) (hq : env.queryRes = QueryRes.ok s) (hs : s ≠ 2)
    (hth : hook.n ≤ hook.tests_run + 1) (hw : env.waitRes = CallRes.success) :
    (hook.after_test env).outcome
        = Outcome.testFailure "Initial sync node did not catch up after waiting 20 minutes"
      ∧ (hook.after_test env).trace
          = [Event.waitCmd waitForSecondaryTimeout, Event.statusQuery (QueryRes.ok s)] := by
  rw [after_test_fired_waitOk hook env hth hw,
    runTestFrom_threshold_failure _ env _ s hq hs rfl]
  exact ⟨rfl, rfl⟩

/-- Witness for the C3 theorem: `n = 1`, fresh hook, wait succeeds but the
query still reports state 5. -/
theorem background_threshold_noncatchup_fatal_witness :
    ((⟨false, 1, 0, 0⟩ : BackgroundInitialSync).after_test bEnvSyncing).outcome
        = Outcome.testFailure "Initial sync node did not catch up after waiting 20 minutes"
      ∧ ((⟨false, 1, 0, 0⟩ : BackgroundInitialSync).after_test bEnvSyncing).trace
          = [Event.waitCmd waitForSecondaryTimeout, Event.statusQuery (QueryRes.ok 5)] :=
  background_threshold_noncatchup_fatal ⟨false, 1, 0, 0⟩ bEnvSyncing 5 rfl (by decide)
    (by decide) rfl

/-- C4: whenever `tests_run >= n` holds at the start of `run_test`, the counter
is reset to 0 before the blocking wait is issued: the wait command (with
`timeoutMillis = 20 * 60 * 1000`) is the first action of the trace, and even
when the wait raises, the invocation ends with `tests_run = 0` and no further
action. -/
theorem background_eager_reset_before_wait (hook : BackgroundInitialSync) (env : BEnv)
    (h : hook.n ≤ hook.tests_run + 1) :
    (hook.after_test env).state.tests_run = 0
      ∧ (hook.after_test env).trace.head? = some (Event.waitCmd (20 * 60 * 1000))
      ∧ (env.waitRes ≠ CallRes.success →
          (hook.after_test env).trace = [Event.waitCmd (20 * 60 * 1000)]
            ∧ (hook.after_test env).outcome ≠ Outcome.normal
            ∧ (hook.after_test env).state.tests_run = 0) := by
  have h0 : (hook.after_test env).state.tests_run = 0 := by
    rw [after_test_tests_run, if_pos h]
  refine ⟨h0, ?_, ?_⟩
  · cases hw : env.waitRes with
    | success =>
      rw [after_test_fired_waitOk hook env h hw]
      obtain ⟨rest, heq, hno⟩ := runTestFrom_trace_shape { hook with tests_run := 0 } env
        [Event.waitCmd waitForSecondaryTimeout]
      rw [heq]
      rfl
    | errOp => rw [after_test_fired_waitErrOp hook env h hw]; rfl
    | errOther => rw [after_test_fired_waitErrOther hook env h hw]; rfl
  · intro hne
    cases hw : env.waitRes with
    | success => exact absurd hw hne
    | errOp =>
      rw [after_test_fired_waitErrOp hook env h hw]
      exact ⟨rfl, by simp, rfl⟩
    | errOther =>
      rw [after_test_fired_waitErrOther hook env h hw]
      exact ⟨rfl, by simp, rfl⟩

/-- Witness for the C4 theorem: `n = 1`, fresh hook, wait raises
`OperationFailure`. -/
theorem background_eager_reset_before_wait_witness :
    (((⟨false, 1, 0, 0⟩ : BackgroundInitialSync).after_test
          { bEnvAllOk with waitRes := CallRes.errOp }).state.tests_run = 0)
      ∧ ((⟨false, 1, 0, 0⟩ : BackgroundInitialSync).after_test
            { bEnvAllOk with waitRes := CallRes.errOp }).trace.head?
          = some (Event.waitCmd (20 * 60 * 1000))
      ∧ (({ bEnvAllOk with waitRes := CallRes.errOp } : BEnv).waitRes ≠ CallRes.success →
          (((⟨false, 1, 0, 0⟩ : BackgroundInitialSync).after_test
                { bEnvAllOk with waitRes := CallRes.errOp }).trace
              = [Event.waitCmd (20 * 60 * 1000)]
            ∧ ((⟨false, 1, 0, 0⟩ : BackgroundInitialSync).after_test
                  { bEnvAllOk with waitRes := CallRes.errOp }).outcome ≠ Outcome.normal
            ∧ ((⟨false, 1, 0, 0⟩ : BackgroundInitialSync).after_test
                  { bEnvAllOk with waitRes := CallRes.errOp }).state.tests_run = 0)) :=
  background_eager_reset_before_wait ⟨false, 1, 0, 0⟩
    { bEnvAllOk with waitRes := CallRes.errOp } (by decide)

lemma irun_test_all_success (hook : IntermediateInitialSync) (env : IEnv)
    (hc : (syncRestartCycle false hook.use_resync env.cycle).2 = CallRes.success)
    (hw : env.waitRes = CallRes.success) (hv : env.validatorRes = CallRes.success) :
    IntermediateInitialSyncTestCase.run_test hook env
      = ⟨hook, (syncRestartCycle false hook.use_resync env.cycle).1
          ++ [Event.waitCmd waitForSecondaryTimeout, Event.validate], Outcome.normal⟩ := by
  simp only [IntermediateInitialSyncTestCase.run_test]
  rw [hc, hw, hv]
  simp

/-- C5: the Periodic-Sync Driver's `after_test` is a no-op (state only gets the
increment, no action, normal return) while the incremented `tests_run` is below
`n`; once `tests_run >= n` it resets the counter to 0 and, when every issued
call succeeds, performs exactly the restart cycle, then the bounded
(20-minute) wait for SECONDARY, then the validator, in that order; and no
invocation of this variant ever takes a fault-injection branch. -/
theorem intermediate_periodic_cycle (hook : IntermediateInitialSync) (env : IEnv) :
    (hook.tests_run + 1 < hook.n →
        hook.after_test env
          = ⟨{ hook with tests_run := hook.tests_run + 1 }, [], Outcome.normal⟩)
      ∧ (hook.n ≤ hook.tests_run + 1 →
          (hook.after_test env).state.tests_run = 0
            ∧ Event.cycleStart ∈ (hook.after_test env).trace
            ∧ ((syncRestartCycle false hook.use_resync env.cycle).2 = CallRes.success →
                env.waitRes = CallRes.success → env.validatorRes = CallRes.success →
                  (hook.after_test env).trace
                      = (syncRestartCycle false hook.use_resync env.cycle).1
                          ++ [Event.waitCmd (20 * 60 * 1000), Event.validate]
                    ∧ (hook.after_test env).outcome = Outcome.normal))
      ∧ Event.faultInject ∉ (hook.after_test env).trace := by
  refine ⟨fun h => iafter_test_below hook env h, fun h => ?_,
    iafter_test_no_faultInject hook env⟩
  have hnb : ¬hook.tests_run + 1 < hook.n := by omega
  rw [iafter_test_fired hook env hnb]
  refine ⟨?_, ?_, ?_⟩
  · rw [irun_test_state]
  · rcases irun_test_trace_cases { hook with tests_run := 0 } env with ht | ht | ⟨ht, _, _⟩
    · rw [ht]
      exact cycleStart_mem_cycle _ _ _
    · rw [ht]
      exact List.mem_append.2 (Or.inl (cycleStart_mem_cycle _ _ _))
    · rw [ht]
      exact List.mem_append.2 (Or.inl (cycleStart_mem_cycle _ _ _))
  · intro hc hw hv
    rw [irun_test_all_success { hook with tests_run := 0 } env hc hw hv]
    exact ⟨rfl, rfl⟩

/-- Witness for the C5 theorem: `n = 1`, fresh hook, all-success
environment. -/
theorem intermediate_periodic_cycle_witness :
    ((⟨false, 1, 0⟩ : IntermediateInitialSync).after_test iEnvAllOk).state.tests_run = 0
      ∧ ((⟨false, 1, 0⟩ : IntermediateInitialSync).after_test iEnvAllOk).trace
          = (syncRestartCycle false false iEnvAllOk.cycle).1
              ++ [Event.waitCmd (20 * 60 * 1000), Event.validate]
      ∧ ((⟨false, 1, 0⟩ : IntermediateInitialSync).after_test iEnvAllOk).outcome
          = Outcome.normal := by
  have h := (intermediate_periodic_cycle ⟨false, 1, 0⟩ iEnvAllOk).2.1 (by decide)
  have h2 := h.2.2 rfl rfl rfl
  exact ⟨h.1, h2.1, h2.2⟩

/-- C6: a sync-restart cycle (in either variant) performs exactly one of the
two mode-dependent action sets, selected by `use_resync`: in resync mode only
the resync admin command (never teardown/setup/await_ready), and in restart
mode only teardown, setup and await_ready (never a resync command), the full
set exactly when the cycle succeeds. -/
theorem sync_restart_cycle_mode_exclusive (w u : Bool) (c : CycleEnv) :
    (u = true →
        (syncRestartCycle w u c).1 = [Event.cycleStart, Event.resyncCmd w]
          ∧ Event.teardown ∉ (syncRestartCycle w u c).1
          ∧ Event.setupNode ∉ (syncRestartCycle w u c).1
          ∧ Event.awaitReady ∉ (syncRestartCycle w u c).1)
      ∧ (u = false →
          (∀ z, Event.resyncCmd z ∉ (syncRestartCycle w u c).1)
            ∧ ((syncRestartCycle w u c).2 = CallRes.success →
                (syncRestartCycle w u c).1
                  = [Event.cycleStart, Event.teardown, Event.setupNode, Event.awaitReady])) := by
  rcases c with ⟨rr, tr, sr, ar⟩
  cases u with
  | true =>
    constructor
    · intro _
      refine ⟨rfl, ?_, ?_, ?_⟩ <;> simp [syncRestartCycle]
    · intro h
      simp at h
  | false =>
    constructor
    · intro h
      simp at h
    · intro _
      constructor
      · intro z
        cases tr <;> cases sr <;> simp [syncRestartCycle]
      · intro h2
        cases tr with
        | success =>
          cases sr with
          | success => rfl
          | errOp => exact absurd h2 (by simp [syncRestartCycle])
          | errOther => exact absurd h2 (by simp [syncRestartCycle])
        | errOp => exact absurd h2 (by simp [syncRestartCycle])
        | errOther => exact absurd h2 (by simp [syncRestartCycle])

/-- Witness for the C6 theorem: resync mode with the Background payload. -/
theorem sync_restart_cycle_mode_exclusive_witness :
    (syncRestartCycle true true cycleAllOk).1 = [Event.cycleStart, Event.resyncCmd true]
      ∧ Event.teardown ∉ (syncRestartCycle true true cycleAllOk).1
      ∧ Event.setupNode ∉ (syncRestartCycle true true cycleAllOk).1
      ∧ Event.awaitReady ∉ (syncRestartCycle true true cycleAllOk).1 :=
  (sync_restart_cycle_mode_exclusive true true cycleAllOk).1 rfl

/-- C7 counterexample: an invocation whose state query fails with the
STARTUP-caused `OperationFailure` returns normally, yet `tests_run` has been
mutated (0 became 1 via the unconditional increment in `after_test`), so the
invocation is not a no-op on `tests_run` as the claim states. -/
theorem startup_skip_counterexample :
    bEnvStartup.queryRes = QueryRes.errOp true
      ∧ ((⟨false, 2, 0, 0⟩ : BackgroundInitialSync).after_test bEnvStartup).outcome
          = Outcome.normal
      ∧ (⟨false, 2, 0, 0⟩ : BackgroundInitialSync).tests_run = 0
      ∧ ((⟨false, 2, 0, 0⟩ : BackgroundInitialSync).after_test bEnvStartup).state.tests_run
          = 1 := by
  decide

/-- C7 amended: when the state query raises `OperationFailure` (the STARTUP
case included), the invocation returns normally, leaves `random_restarts`
unchanged, performs no action after the failing query, and `tests_run` carries
only the mutations made before the query (the unconditional increment, and the
threshold reset when it fired). -/
theorem startup_skip_amended (hook : BackgroundInitialSync) (env : BEnv) (b : Bool)
    (h : Event.statusQuery (QueryRes.errOp b) ∈ (hook.after_test env).trace) :
    (hook.after_test env).outcome = Outcome.normal
      ∧ (hook.after_test env).state.random_restarts = hook.random_restarts
      ∧ (hook.after_test env).state.tests_run
          = (if hook.n ≤ hook.tests_run + 1 then 0 else hook.tests_run + 1)
      ∧ (hook.after_test env).trace
          = (if hook.n ≤ hook.tests_run + 1 then [Event.waitCmd waitForSecondaryTimeout]
              else [])
            ++ [Event.statusQuery (QueryRes.errOp b)] := by
  obtain ⟨hq, hwimp⟩ := after_test_query_reached hook env _ h
  by_cases hth : hook.n ≤ hook.tests_run + 1
  · rw [after_test_fired_waitOk hook env hth (hwimp hth), runTestFrom_errOp _ env _ b hq]
    exact ⟨rfl, rfl, by rw [if_pos hth], by rw [if_pos hth]⟩
  · rw [after_test_not_fired hook env hth, runTestFrom_errOp _ env _ b hq]
    exact ⟨rfl, rfl, by rw [if_neg hth], by rw [if_neg hth]⟩

/-- Witness for the amended C7 theorem at a concrete hook and a
STARTUP-failure environment. -/
theorem startup_skip_amended_witness :
    ((⟨false, 2, 0, 0⟩ : BackgroundInitialSync).after_test bEnvStartup).outcome
        = Outcome.normal
      ∧ ((⟨false, 2, 0, 0⟩ : BackgroundInitialSync).after_test
            bEnvStartup).state.random_restarts
          = (⟨false, 2, 0, 0⟩ : BackgroundInitialSync).random_restarts
      ∧ ((⟨false, 2, 0, 0⟩ : BackgroundInitialSync).after_test bEnvStartup).state.tests_run
          = (if 2 ≤ 0 + 1 then 0 else 0 + 1)
      ∧ ((⟨false, 2, 0, 0⟩ : BackgroundInitialSync).after_test bEnvStartup).trace
          = (if 2 ≤ 0 + 1 then [Event.waitCmd waitForSecondaryTimeout] else [])
              ++ [Event.statusQuery (QueryRes.errOp true)] :=
  startup_skip_amended ⟨false, 2, 0, 0⟩ bEnvStartup true (by decide)

/-- C8 counterexample: a state-query `OperationFailure` that is NOT the
STARTUP/unavailable case (`fromStartup = false`) is still absorbed — the
invocation returns normally along the skip path instead of propagating the
failure. -/
theorem query_failure_absorbed_counterexample :
    bEnvOpFail.queryRes = QueryRes.errOp false
      ∧ Event.statusQuery (QueryRes.errOp false)
          ∈ ((⟨false, 5, 0, 0⟩ : BackgroundInitialSync).after_test bEnvOpFail).trace
      ∧ ((⟨false, 5, 0, 0⟩ : BackgroundInitialSync).after_test bEnvOpFail).outcome
          = Outcome.normal := by
  decide

/-- C8 amended: the hook's `except` clause is keyed on the exception class,
not on the failure's cause: a state-query failure propagates exactly when it
is not an `OperationFailure`; every `OperationFailure` — whether or not caused
by STARTUP — is absorbed as the skip/no-op path. -/
theorem query_failure_absorption (hook : BackgroundInitialSync) (env : BEnv) :
    (Event.statusQuery QueryRes.errOther ∈ (hook.after_test env).trace →
        (hook.after_test env).outcome = Outcome.raisedOther)
      ∧ ∀ b, Event.statusQuery (QueryRes.errOp b) ∈ (hook.after_test env).trace →
          (hook.after_test env).outcome = Outcome.normal := by
  constructor
  · intro h
    obtain ⟨hq, hwimp⟩ := after_test_query_reached hook env _ h
    by_cases hth : hook.n ≤ hook.tests_run + 1
    · rw [after_test_fired_waitOk hook env hth (hwimp hth), runTestFrom_errOther _ env _ hq]
    · rw [after_test_not_fired hook env hth, runTestFrom_errOther _ env _ hq]
  · intro b h
    obtain ⟨hq, hwimp⟩ := after_test_query_reached hook env _ h
    by_cases hth : hook.n ≤ hook.tests_run + 1
    · rw [after_test_fired_waitOk hook env hth (hwimp hth), runTestFrom_errOp _ env _ b hq]
    · rw [after_test_not_fired hook env hth, runTestFrom_errOp _ env _ b hq]

/-- Witness for the amended C8 theorem: a non-`OperationFailure` query failure
propagates. -/
theorem query_failure_absorption_witness :
    ((⟨false, 5, 0, 0⟩ : BackgroundInitialSync).after_test
          { bEnvAllOk with queryRes := QueryRes.errOther }).outcome
        = Outcome.raisedOther :=
  (query_failure_absorption ⟨false, 5, 0, 0⟩
    { bEnvAllOk with queryRes := QueryRes.errOther }).1 (by decide)

/-- C9 counterexample: in the Periodic-Sync Driver (one of the "either
variant"s the claim covers), a threshold-fired invocation with every call
succeeding initiates the sync-restart cycle (`cycleStart`, first action)
strictly before the Validator runs (`validate`, last action), with no
fault-injection involved — contradicting "a sync-restart cycle is initiated
only after the Validator invocation completes" for the cooperative path. -/
theorem validation_ordering_counterexample :
    ((⟨false, 1, 0⟩ : IntermediateInitialSync).after_test iEnvAllOk).trace
        = [Event.cycleStart, Event.teardown, Event.setupNode, Event.awaitReady,
            Event.waitCmd 1200000, Event.validate]
      ∧ Event.faultInject
          ∉ ((⟨false, 1, 0⟩ : IntermediateInitialSync).after_test iEnvAllOk).trace
      ∧ List.indexOf Event.cycleStart
            ((⟨false, 1, 0⟩ : IntermediateInitialSync).after_test iEnvAllOk).trace
          < List.indexOf Event.validate
              ((⟨false, 1, 0⟩ : IntermediateInitialSync).after_test iEnvAllOk).trace
      ∧ ((⟨false, 1, 0⟩ : IntermediateInitialSync).after_test iEnvAllOk).outcome
          = Outcome.normal := by
  decide

/-- C9 amended: in both variants the Validator runs only immediately after a
confirmed-SECONDARY observation (a state query returning 2 in the monitor, a
successful bounded wait in the driver).  In the Continuous-Sync Monitor a
cooperative (non-fault-injection) restart cycle is initiated only after the
Validator invocation, and the fault-injection path never validates; the
Periodic-Sync Driver, by design, initiates its restart cycle before its wait
and validation. -/
theorem validation_ordering_amended :
    (∀ (hook : BackgroundInitialSync) (env : BEnv),
        Event.validate ∈ (hook.after_test env).trace →
          ∃ pre post, (hook.after_test env).trace
              = pre ++ Event.statusQuery (QueryRes.ok 2) :: Event.validate :: post
            ∧ Event.cycleStart ∉ pre ∧ Event.validate ∉ post)
      ∧ (∀ (hook : BackgroundInitialSync) (env : BEnv),
          Event.cycleStart ∈ (hook.after_test env).trace →
            Event.faultInject ∉ (hook.after_test env).trace →
              ∃ pre post, (hook.after_test env).trace = pre ++ Event.validate :: post
                ∧ Event.cycleStart ∉ pre ∧ Event.cycleStart ∈ post)
      ∧ (∀ (hook : BackgroundInitialSync) (env : BEnv),
          Event.faultInject ∈ (hook.after_test env).trace →
            Event.validate ∉ (hook.after_test env).trace)
      ∧ ∀ (hook : IntermediateInitialSync) (env : IEnv),
          Event.validate ∈ (hook.after_test env).trace →
            env.waitRes = CallRes.success
              ∧ ∃ pre, (hook.after_test env).trace
                  = pre ++ [Event.waitCmd waitForSecondaryTimeout, Event.validate] := by
  refine ⟨?_, ?_, ?_, ?_⟩
  · intro hook env h
    obtain ⟨hq, pre, post, htr, hpre, hpost⟩ := after_test_validate_shape hook env h
    refine ⟨pre, post, htr, ?_, ?_⟩
    · intro hcp
      have := hpre _ hcp
      simp at this
    · rcases hpost with rfl | rfl
      · simp
      · exact validate_not_mem_cycle _ _ _
  · intro hook env hc hf
    have hv := after_test_cycleStart_validate hook env hc hf
    obtain ⟨hq, pre, post, htr, hpre, hpost⟩ := after_test_validate_shape hook env hv
    refine ⟨pre ++ [Event.statusQuery (QueryRes.ok 2)], post, ?_, ?_, ?_⟩
    · rw [htr]
      simp
    · intro hcp
      rcases List.mem_append.1 hcp with hcp | hcp
      · have := hpre _ hcp
        simp at this
      · simp at hcp
    · rw [htr] at hc
      simp only [List.mem_append, List.mem_cons] at hc
      rcases hc with hc | hc | hc | hc
      · exact absurd (hpre _ hc) (by simp)
      · exact absurd hc (by simp)
      · exact absurd hc (by simp)
      · exact hc
  · intro hook env hfi hv
    obtain ⟨_, _, _, s, hqs, hs⟩ := after_test_faultInject_inv hook env hfi
    obtain ⟨hq2, _⟩ := after_test_validate_shape hook env hv
    rw [hqs] at hq2
    simp only [QueryRes.ok.injEq] at hq2
    exact hs hq2
  · intro hook env h
    exact iafter_test_validate_inv hook env h

/-- Witness for the amended C9 theorem: the Periodic-Sync Driver validates
immediately after a successful bounded wait. -/
theorem validation_ordering_amended_witness :
    iEnvAllOk.waitRes = CallRes.success
      ∧ ∃ pre, ((⟨false, 1, 0⟩ : IntermediateInitialSync).after_test iEnvAllOk).trace
          = pre ++ [Event.waitCmd waitForSecondaryTimeout, Event.validate] :=
  validation_ordering_amended.2.2.2 ⟨false, 1, 0⟩ iEnvAllOk (by decide)

/-- C10: when the fault-injection branch runs, `random_restarts` is
incremented (by 1) only when the sync-restart cycle returns successfully; if
the restart action raises, `random_restarts` keeps its prior value, so fault
injection stays enabled for a later invocation. -/
theorem fault_injection_rr_after_cycle (hook : BackgroundInitialSync) (env : BEnv)
    (h : Event.faultInject ∈ (hook.after_test env).trace) :
    ((syncRestartCycle true hook.use_resync env.faultCycle).2 = CallRes.success →
        (hook.after_test env).state.random_restarts = hook.random_restarts + 1)
      ∧ ((syncRestartCycle true hook.use_resync env.faultCycle).2 ≠ CallRes.success →
          (hook.after_test env).state.random_restarts = hook.random_restarts) := by
  obtain ⟨hth, hrr, hrand, s, hq, hs⟩ := after_test_faultInject_inv hook env h
  rw [after_test_not_fired hook env hth,
    runTestFrom_fault { hook with tests_run := hook.tests_run + 1 } env [] s hq hs
      (by simp) ⟨hrr, hrand⟩]
  dsimp only
  cases hc : (syncRestartCycle true hook.use_resync env.faultCycle).2 with
  | success => exact ⟨fun _ => rfl, fun h2 => absurd rfl h2⟩
  | errOp => exact ⟨fun h2 => absurd h2 (by simp), fun _ => rfl⟩
  | errOther => exact ⟨fun h2 => absurd h2 (by simp), fun _ => rfl⟩

/-- Witness for the C10 theorem: the fault branch fires but teardown raises,
so `random_restarts` stays 0. -/
theorem fault_injection_rr_after_cycle_witness :
    ((⟨false, 3, 0, 0⟩ : BackgroundInitialSync).after_test
          bEnvFaultFail).state.random_restarts
      = (⟨false, 3, 0, 0⟩ : BackgroundInitialSync).random_restarts :=
  (fault_injection_rr_after_cycle ⟨false, 3, 0, 0⟩ bEnvFaultFail (by decide)).2 (by decide)
